import Mathlib

/-!
Shallow embedding of the eccat chess engine core (src/src/search.rs,
src/src/tt.rs, src/src/oracle.rs, src/src/evaluate.rs types) and proofs
about it.

Modelling conventions:
* `Eval` (`pub type Eval = i16`) is modelled as `Int`; saturating i16
  operations (`saturating_add` / `saturating_sub`) are modelled explicitly by
  `satAdd` / `satSub`.  All other score arithmetic in the search stays far
  inside the i16 range, matching the source's non-wrapping behaviour.
* `u64` keys and Zobrist hashes are modelled as `Nat`; the only operations the
  source performs on them are equality, masking with `0xffff_ffff`,
  multiplication and a right shift, all of which are taken over `Nat`.
* The board library (cozy_chess) is external to the repository.  A position is
  modelled by the observations the core actually consumes: the piece
  placement (`Board`, used for `occupied()`, per-piece and per-colour
  bitboards and `is_capture`), the check status (`checkers().is_empty()`),
  the Zobrist hash, the halfmove clock, and the static evaluation of the
  position.  Legal move generation is modelled by a game tree whose node
  carries those observations and whose edges carry the generated legal moves
  (together with the externally computed SEE value of the move).
* The search worker's control channel and clocks: `check_terminate` is a
  no-op for `SearchMode::Infinite` when no `stop`/`quit` command arrives, so
  the embedding models exactly that run (the `terminate` flag is carried but
  never set).
* The source orders moves with an unstable `pdqsort`; ties between equal
  ordering scores are resolved arbitrarily there.  The embedding uses a
  stable insertion sort on the same descending comparator, one admissible
  resolution of those ties; no claim proved below depends on tie order.
-/

namespace Eccat

/-- `pub type Eval = i16` (src/src/evaluate.rs:331), modelled as `Int`. -/
abbrev Eval := Int

/-- `pub const EVAL_INFINITY: Eval = 30_000` (src/src/evaluate.rs:333). -/
def EVAL_INFINITY : Eval := 30000

/-- Lower bound of `i16`. -/
def I16_MIN : Int := -32768

/-- Upper bound of `i16`. -/
def I16_MAX : Int := 32767

/-- Clamp an integer into the `i16` range. -/
def i16clamp (x : Int) : Int := max I16_MIN (min I16_MAX x)

/-- `i16::saturating_add`. -/
def satAdd (a b : Int) : Int := i16clamp (a + b)

/-- `i16::saturating_sub`. -/
def satSub (a b : Int) : Int := i16clamp (a - b)

/-- `cozy_chess::Color`. -/
inductive Color where
  | white
  | black
deriving DecidableEq, Repr

/-- `cozy_chess::Piece`. -/
inductive Piece where
  | pawn
  | knight
  | bishop
  | rook
  | queen
  | king
deriving DecidableEq, Repr

/-- `cozy_chess::Move`: from-square, to-square, optional promotion piece.
Squares are indexed 0..63 with index = rank * 8 + file (A1 = 0). -/
structure Move where
  fromSq : Fin 64
  toSq : Fin 64
  promotion : Option Piece
deriving DecidableEq, Repr

/-- The piece placement of a position: what occupies each square.  This is
the part of the external board state that `is_capture`, `occupied()`,
`pieces(..)` and `colors(..)` read. -/
def Board := Fin 64 → Option (Color × Piece)

/-- Rank (0-based) of a square index. -/
def sqRank (s : Fin 64) : Nat := s.val / 8

/-- File (0-based) of a square index. -/
def sqFile (s : Fin 64) : Nat := s.val % 8

/-- `board.occupied()` as the set of occupied squares. -/
def occupied (b : Board) : Finset (Fin 64) :=
  Finset.univ.filter (fun s => (b s).isSome = true)

/-- `board.pieces(p)` as the set of squares holding a piece of kind `p`. -/
def pieces (b : Board) (p : Piece) : Finset (Fin 64) :=
  Finset.univ.filter (fun s => (b s).map Prod.snd = some p)

/-- `board.colors(c)` as the set of squares holding a piece of colour `c`. -/
def colors (b : Board) (c : Color) : Finset (Fin 64) :=
  Finset.univ.filter (fun s => (b s).map Prod.fst = some c)

/-- `cozy_chess::BitBoard::EDGES`: files A/H and ranks 1/8. -/
def EDGES : Finset (Fin 64) :=
  Finset.univ.filter (fun s => sqRank s = 0 ∨ sqRank s = 7 ∨ sqFile s = 0 ∨ sqFile s = 7)

/-- `cozy_chess::BitBoard::CORNERS`: A1, H1, A8, H8. -/
def CORNERS : Finset (Fin 64) :=
  Finset.univ.filter (fun s => (sqRank s = 0 ∨ sqRank s = 7) ∧ (sqFile s = 0 ∨ sqFile s = 7))

/-- `cozy_chess::BitBoard::DARK_SQUARES`: squares with rank + file even (A1 dark). -/
def DARK_SQUARES : Finset (Fin 64) :=
  Finset.univ.filter (fun s => (sqRank s + sqFile s) % 2 = 0)

namespace Oracle

/-- `Oracle::is_draw` (src/src/oracle.rs:6-48).  The source matches on
`all_pieces.len()` and uses early returns inside the 4-piece arm; the match
is modelled as an if-chain on the cardinality and the early returns as
nested if-expressions.  The source binds `one_piece_per_colour =
board.colors(Color::White).len() == 2`; it is inlined here. -/
def is_draw (b : Board) : Bool :=
  if (occupied b).card = 2 then
    -- K vs K
    true
  else if (occupied b).card = 3 then
    -- K vs K + N or K vs K + B
    !decide ((pieces b Piece.knight ∪ pieces b Piece.bishop) = ∅)
  else if (occupied b).card = 4 then
    -- K + N vs K + N and the kings are not on the edges
    if (pieces b Piece.knight).card = 2 ∧ pieces b Piece.king ∩ EDGES = ∅ then
      true
    -- K + B vs K + B, bishops on the same colour
    else if (pieces b Piece.bishop).card = 2 ∧ ¬((pieces b Piece.bishop ∩ DARK_SQUARES).card = 1) then
      true
    -- bishops on opposite colours and the kings are not in the corners
    else if (pieces b Piece.bishop).card = 2 ∧ (colors b Color.white).card = 2
        ∧ pieces b Piece.king ∩ CORNERS = ∅ then
      true
    else if (pieces b Piece.bishop).card = 1 ∧ (pieces b Piece.knight).card = 1
        ∧ (colors b Color.white).card = 2 ∧ pieces b Piece.king ∩ CORNERS = ∅ then
      true
    else
      false
  else
    false

end Oracle

/-- `tt::Flag` (src/src/tt.rs:194-200); `Exact` is the `Default`. -/
inductive Flag where
  | exact
  | alpha
  | beta
deriving DecidableEq, Repr

instance : Inhabited Flag := ⟨Flag.exact⟩

/-- `tt::Entry` (src/src/tt.rs:117-124). -/
structure Entry where
  key : Nat
  depth : Nat
  flag : Flag
  score : Eval
  bestMove : Option Move
deriving DecidableEq, Repr

/-- `Entry::default()`: zeroed key/depth/score, `Exact` flag, no move. -/
def Entry.default : Entry := ⟨0, 0, Flag.exact, 0, none⟩

instance : Inhabited Entry := ⟨Entry.default⟩

/-- `Entry::new` (src/src/tt.rs:128-142). -/
def Entry.new (key : Nat) (depth : Nat) (flag : Flag) (score : Eval)
    (bestMove : Option Move) : Entry :=
  ⟨key, depth, flag, score, bestMove⟩

/-- `Entry::get` (src/src/tt.rs:145-181): usable only when the stored depth
is at least the requested depth; an `Exact` score that encodes a mate is
re-biased by the current ply; an `Alpha` (upper-bound) entry yields `alpha`
when the stored score is at most `alpha`; a `Beta` (lower-bound) entry yields
`beta` when the stored score is at least `beta`; the stored best move is
returned in every case. -/
def Entry.get (e : Entry) (depth ply : Nat) (alpha beta : Eval) :
    Option Eval × Option Move :=
  let value : Option Eval :=
    if depth ≤ e.depth then
      match e.flag with
      | Flag.exact =>
        let score := e.score
        let score :=
          if EVAL_INFINITY - 256 < score then score - (ply : Int)
          else if score < 256 - EVAL_INFINITY then score + (ply : Int)
          else score
        some score
      | Flag.alpha => if e.score ≤ alpha then some alpha else none
      | Flag.beta => if beta ≤ e.score then some beta else none
    else none
  (value, e.bestMove)

/-- `Bucket::ENTRIES = 64 / size_of::<Entry>() = 4` (src/src/tt.rs:96). -/
def BUCKET_ENTRIES : Nat := 4

/-- `tt::Bucket` (src/src/tt.rs:90-93): four entries per bucket.  The array
`[Entry; 4]` is modelled as a list whose length is 4 for every bucket the
table ever holds. -/
structure Bucket where
  entries : List Entry
deriving DecidableEq, Repr

/-- `Bucket::default()`: four default entries. -/
def Bucket.default : Bucket := ⟨List.replicate 4 Entry.default⟩

instance : Inhabited Bucket := ⟨Bucket.default⟩

/-- The scan `for i in 1..Self::ENTRIES { if self.entries[i].depth < lowest_depth
{ .. } }` of `Bucket::store` (src/src/tt.rs:99-107), generalised over the tail
of the entry list: `i` is the index of the next element, `bestIdx`/`bestDepth`
the lowest-depth slot seen so far (strict `<`, so ties keep the earlier slot). -/
def lowestDepthIdxAux : List Entry → Nat → Nat → Nat → Nat
  | [], _, bestIdx, _ => bestIdx
  | e :: rest, i, bestIdx, bestDepth =>
    if e.depth < bestDepth then lowestDepthIdxAux rest (i + 1) i e.depth
    else lowestDepthIdxAux rest (i + 1) bestIdx bestDepth

/-- Index of the lowest-depth slot of a bucket, starting from slot 0
(src/src/tt.rs:99-107). -/
def Bucket.lowestDepthIndex (bu : Bucket) : Nat :=
  match bu.entries with
  | [] => 0
  | e :: rest => lowestDepthIdxAux rest 1 0 e.depth

/-- Depth recorded in slot `j` of a bucket. -/
def Bucket.slotDepth (bu : Bucket) (j : Nat) : Nat :=
  (bu.entries.getD j Entry.default).depth

/-- `Bucket::store` (src/src/tt.rs:98-114): replace the lowest-depth slot,
bumping `used_entries` exactly when the replaced slot's depth was zero. -/
def Bucket.store (bu : Bucket) (entry : Entry) (usedEntries : Nat) : Bucket × Nat :=
  let i := bu.lowestDepthIndex
  let used := if bu.slotDepth i = 0 then usedEntries + 1 else usedEntries
  (⟨bu.entries.set i entry⟩, used)

/-- `tt::TranspositionTable` (src/src/tt.rs:5-10). -/
structure TranspositionTable where
  table : List Bucket
  totalEntries : Nat
  usedEntries : Nat
deriving DecidableEq, Repr

/-- `TranspositionTable::new` (src/src/tt.rs:14-28): capacity =
`mb_size * 1024 * 1024 / size_of::<Bucket>()` buckets of 4 entries,
`size_of::<Bucket>() = 64` (`assert_size!(Bucket, 64)`). -/
def TranspositionTable.new (mbSize : Nat) : TranspositionTable :=
  let bytes := mbSize * 1024 * 1024
  let bucketSize := 64
  let totalBuckets := bytes / bucketSize
  { table := List.replicate totalBuckets Bucket.default
    totalEntries := totalBuckets * BUCKET_ENTRIES
    usedEntries := 0 }

/-- `TranspositionTable::hash_idx` (src/src/tt.rs:54-56):
`((key & 0xffff_ffff) * len as u64) >> 32`. -/
def TranspositionTable.hashIdx (tt : TranspositionTable) (key : Nat) : Nat :=
  ((key &&& 0xffffffff) * tt.table.length) >>> 32

/-- The bucket addressed by a key. -/
def TranspositionTable.bucketAt (tt : TranspositionTable) (key : Nat) : Bucket :=
  tt.table.getD (tt.hashIdx key) Bucket.default

/-- `TranspositionTable::probe` (src/src/tt.rs:31-42): `None` on an empty
table, otherwise the first entry of the addressed bucket whose key matches. -/
def TranspositionTable.probe (tt : TranspositionTable) (key : Nat) : Option Entry :=
  if tt.table.isEmpty then none
  else (tt.bucketAt key).entries.find? (fun e => e.key == key)

/-- `TranspositionTable::insert` (src/src/tt.rs:44-52): no-op on an empty
table, otherwise store into the addressed bucket. -/
def TranspositionTable.insert (tt : TranspositionTable) (entry : Entry) :
    TranspositionTable :=
  if tt.table.isEmpty then tt
  else
    let idx := tt.hashIdx entry.key
    let res := (tt.bucketAt entry.key).store entry tt.usedEntries
    { tt with table := tt.table.set idx res.1, usedEntries := res.2 }

/-- `TranspositionTable::hashfull` (src/src/tt.rs:63-74).  The source computes
`(used as f64 / total as f64 * 1000).floor() as u16` when the table is
non-empty and returns 0 otherwise; the non-empty branch is modelled with the
corresponding natural-number division (the claims below rely only on the
empty-table branch). -/
def TranspositionTable.hashfull (tt : TranspositionTable) : Nat :=
  if 0 < tt.table.length then tt.usedEntries * 1000 / tt.totalEntries else 0

/-- `TranspositionTable::clear` (src/src/tt.rs:76-84): every entry of every
bucket is reset to the default and `used_entries` to 0. -/
def TranspositionTable.clear (tt : TranspositionTable) : TranspositionTable :=
  { tt with table := tt.table.map (fun _ => Bucket.default), usedEntries := 0 }

/-- `search::NodeType` (src/src/search.rs:745-750). -/
inductive NodeType where
  | root
  | pv
  | other
deriving DecidableEq, Repr

/-- The per-search state the embedded search reads and writes
(src/src/search.rs:712-722).  `depth`, `start_time` and `allocated_time` are
only consumed by the reporting and time-control code, which the embedding
does not model (see the header); the killer table `[[Option<Move>; 2]; 128]`
is modelled as a total function from the ply to the two slots (the source
indexes the 128-row array with the current ply). -/
structure SearchState where
  nodes : Nat
  ply : Nat
  seldepth : Nat
  terminate : Bool
  killerMoves : Nat → Option Move × Option Move

/-- `search::is_capture` (src/src/search.rs:595-597):
`board.occupied().has(legal.to)`. -/
def is_capture (b : Board) (mv : Move) : Bool := (b mv.toSq).isSome

/-- `store_killer_move` (src/src/search.rs:676-686): when the first slot at
the current ply differs from the move, demote the first slot to the second
and put the move in the first slot. -/
def store_killer_move (st : SearchState) (mv : Move) : SearchState :=
  let firstKiller := (st.killerMoves st.ply).1
  if firstKiller ≠ some mv then
    { st with killerMoves := fun q =>
        if q = st.ply then (some mv, firstKiller) else st.killerMoves q }
  else st

/-- The killer update performed at a beta cutoff (src/src/search.rs:435-437):
`if !is_capture(refs.board, legal) { store_killer_move(refs, legal); }`
(`refs.board` is the parent position again after `unmake_move`). -/
def onBetaCutoffKiller (b : Board) (mv : Move) (st : SearchState) : SearchState :=
  if !is_capture b mv then store_killer_move st mv else st

/-- `search::MoveScore` (src/src/search.rs:585-593); the derived Rust `Ord`
compares the variant first and the inner SEE value second. -/
inductive MoveScore where
  | underPromotion
  | nonCapture
  | losingCapture (see : Int)
  | killer
  | capture (see : Int)
  | pvMove
deriving DecidableEq, Repr

/-- Variant rank of a `MoveScore`, in the declaration order of the source. -/
def MoveScore.variantRank : MoveScore → Nat
  | .underPromotion => 0
  | .nonCapture => 1
  | .losingCapture _ => 2
  | .killer => 3
  | .capture _ => 4
  | .pvMove => 5

/-- Payload of a `MoveScore` (0 for payload-free variants). -/
def MoveScore.payload : MoveScore → Int
  | .losingCapture v => v
  | .capture v => v
  | _ => 0

/-- The derived `Ord` on `MoveScore`: variant order first, payload second. -/
def MoveScore.le (a b : MoveScore) : Bool :=
  decide (a.variantRank < b.variantRank)
  || (decide (a.variantRank = b.variantRank) && decide (a.payload ≤ b.payload))

/-- A generated legal move together with the data the search derives from it
via the external board library: the SEE value `see::see(board, mv)` computed
for capturing moves (src/src/see.rs). -/
structure MoveData where
  mv : Move
  see : Int

/-- Node-level observations of a position consumed by the search:
piece placement, `!board.checkers().is_empty()`, `board.hash()`,
`board.halfmove_clock()` and `evaluate(board)` (the evaluator of
src/src/evaluate.rs is deterministic in the position, so it is carried as
node data). -/
structure NodeData where
  board : Board
  isCheck : Bool
  hash : Nat
  halfmoveClock : Nat
  eval : Eval

/-- The game tree presented to the search by the external move generator:
each node carries its observations and the list of legal moves with the
subtree they lead to (`generate_moves(board, false)`,
src/src/search.rs:525-542). -/
inductive GameTree where
  | node : NodeData → List (MoveData × GameTree) → GameTree

/-- Observations at the root of a game tree. -/
def GameTree.data : GameTree → NodeData
  | .node d _ => d

/-- Legal moves (with subtrees) at the root of a game tree. -/
def GameTree.children : GameTree → List (MoveData × GameTree)
  | .node _ c => c

/-- `matches!(mv.promotion, Some(piece) if piece != Piece::Queen)`
(src/src/search.rs:560). -/
def isUnderPromotion (mv : Move) : Bool :=
  match mv.promotion with
  | some p => decide (p ≠ Piece.queen)
  | none => false

/-- `order_score` (src/src/search.rs:553-583): PV move, under-promotion,
capture ordered by SEE sign, killer, quiet. -/
def order_score (b : Board) (st : SearchState) (pvM : Option Move)
    (md : MoveData) : MoveScore :=
  if pvM = some md.mv then MoveScore.pvMove
  else if isUnderPromotion md.mv then MoveScore.underPromotion
  else if is_capture b md.mv then
    if 0 ≤ md.see then MoveScore.capture md.see else MoveScore.losingCapture md.see
  else if (st.killerMoves st.ply).1 = some md.mv ∨ (st.killerMoves st.ply).2 = some md.mv then
    MoveScore.killer
  else MoveScore.nonCapture

/-- `order_moves` (src/src/search.rs:544-551): sort by descending
`order_score`.  The source sorts with an unstable `pdqsort`; the embedding
uses a stable insertion sort on the same comparator (see the header). -/
def order_moves (b : Board) (st : SearchState) (pvM : Option Move)
    (moves : List (MoveData × GameTree)) : List (MoveData × GameTree) :=
  List.insertionSort
    (fun x y => MoveScore.le (order_score b st pvM y.1) (order_score b st pvM x.1) = true)
    moves

/-- The futility margins `[293, 620]` of src/src/search.rs:327. -/
def FUTILITY_MARGINS : List Int := [293, 620]

/-- The `futile` flag (src/src/search.rs:327-329):
`[293, 620].get(depth).map_or(false, |&margin|
static_eval.saturating_add(margin) <= alpha)`. -/
def futileFlag (staticEval alpha : Eval) (depth : Nat) : Bool :=
  match FUTILITY_MARGINS.get? depth with
  | some margin => decide (satAdd staticEval margin ≤ alpha)
  | none => false

/-- The futility-filter condition of src/src/search.rs:343:
`best_move.is_some() && futile && is_quiet && !is_check && !gives_check`.
The arguments carry the values of the source's local variables; in
particular `givesCheck` holds the value of the source variable `gives_check
= refs.board.checkers().is_empty()`, evaluated on the child position after
the move was played, which is `true` exactly when the move did NOT give
check. -/
def futilitySkip (bestMoveSome futile isQuiet isCheck givesCheck : Bool) : Bool :=
  bestMoveSome && futile && isQuiet && !isCheck && !givesCheck

/-- The reverse-futility gate of src/src/search.rs:307-313: no margin at
root or PV nodes, margin `30 * depth` when `depth <= 4`. -/
def reverseFutilityMargin (nt : NodeType) (depth : Nat) : Option Int :=
  match nt with
  | .root | .pv => none
  | .other => if depth ≤ 4 then some (30 * (depth : Int)) else none

/-- `Iterator::step_by(2)`: keep the elements at positions 0, 2, 4, ... -/
def stepBy2 : List Nat → List Nat
  | [] => []
  | [x] => [x]
  | x :: _ :: rest => x :: stepBy2 rest

/-- `is_threefold_repetition` (src/src/search.rs:661-670): walk the history
stack backwards, at most `halfmove_clock + 1` entries, stepping by 2, and
test whether at least 2 of the scanned entries equal the current hash.  The
history stack holds the hash of every position on the path including the
current one (`make_move` pushes the hash of the just-reached position,
src/src/search.rs:599-615). -/
def is_threefold_repetition (history : List Nat) (halfmoveClock : Nat)
    (hash : Nat) : Bool :=
  decide (2 ≤ ((stepBy2 (history.reverse.take (halfmoveClock + 1))).filter
    (fun h => h == hash)).length)

/-- `is_fifty_move_rule` (src/src/search.rs:672-674). -/
def is_fifty_move_rule (halfmoveClock : Nat) : Bool := decide (100 ≤ halfmoveClock)

/-- Shared mutable state threaded through the search: the search state, the
history stack of position hashes (`Vec<History>`), and the transposition
table. -/
structure SearchCtx where
  st : SearchState
  history : List Nat
  tt : TranspositionTable

/-- `is_draw` (src/src/search.rs:657-659), evaluated on the current node
(after `make_move`, the node's own hash is on top of the history stack). -/
def isDrawNode (ctx : SearchCtx) (d : NodeData) : Bool :=
  Oracle.is_draw d.board
    || is_threefold_repetition ctx.history d.halfmoveClock d.hash
    || is_fifty_move_rule d.halfmoveClock

/-- `make_move` (src/src/search.rs:599-615): push the hash of the reached
position, bump the ply, update the selective depth. -/
def make_move (ctx : SearchCtx) (child : NodeData) : SearchCtx :=
  let ply := ctx.st.ply + 1
  { ctx with
    history := ctx.history ++ [child.hash]
    st := { ctx.st with
      ply := ply
      seldepth := if ctx.st.seldepth < ply then ply else ctx.st.seldepth } }

/-- `unmake_move` (src/src/search.rs:617-623): pop the history, drop the ply
(the board itself is restored by returning to the parent tree node). -/
def unmake_move (ctx : SearchCtx) : SearchCtx :=
  { ctx with history := ctx.history.dropLast, st := { ctx.st with ply := ctx.st.ply - 1 } }

/-- Result of a search call: the returned score, the final shared state, and
the principal variation written to the caller's out-parameter.  The source
mutates a `&mut Vec<Move>`; the embedding returns the moves the call wrote
(a call that never improves alpha writes nothing and the model returns `[]`
where the source leaves the caller's previous content in place — no claim
below depends on that content). -/
structure NResult where
  score : Eval
  ctx : SearchCtx
  pv : List Move

/-- The move loop of `quiescence` (src/src/search.rs:497-517), with the
recursive call abstracted as `recurse`. -/
def quiescenceLoop (recurse : GameTree → SearchCtx → Eval → Eval → NResult) :
    List (MoveData × GameTree) → SearchCtx → Eval → Eval → List Move → NResult
  | [], ctx, alpha, _, pv => { score := alpha, ctx := ctx, pv := pv }
  | (md, child) :: rest, ctx, alpha, beta, pv =>
    let ctx1 := make_move ctx child.data
    let r := recurse child ctx1 (-beta) (-alpha)
    let evalScore := -r.score
    let ctx2 := unmake_move r.ctx
    if beta ≤ evalScore then { score := beta, ctx := ctx2, pv := pv }
    else if alpha < evalScore then
      quiescenceLoop recurse rest ctx2 evalScore beta (md.mv :: r.pv)
    else
      quiescenceLoop recurse rest ctx2 alpha beta pv

/-- `quiescence` (src/src/search.rs:472-520).  `fuel` bounds the recursion
depth (the source recursion is bounded by the finite game tree; every
theorem below supplies enough fuel).  The polling of the control channel
(`check_terminate`) is a no-op in the modelled `SearchMode::Infinite` run
with no incoming command, so only the `terminate` flag test remains. -/
def quiescence : Nat → GameTree → SearchCtx → Eval → Eval → NResult
  | 0, _, ctx, _, _ => { score := 0, ctx := ctx, pv := [] }
  | fuel + 1, t, ctx, alpha, beta =>
    if ctx.st.terminate then { score := 0, ctx := ctx, pv := [] }
    else
      let ctx := { ctx with st := { ctx.st with nodes := ctx.st.nodes + 1 } }
      let standPat := t.data.eval
      if beta ≤ standPat then { score := beta, ctx := ctx, pv := [] }
      else
        let alpha := if alpha < standPat then standPat else alpha
        let moves := t.children.filter
          (fun mc => is_capture t.data.board mc.1.mv && decide (0 ≤ mc.1.see))
        let moves := order_moves t.data.board ctx.st none moves
        quiescenceLoop (fun t' ctx' a' b' => quiescence fuel t' ctx' a' b')
          moves ctx alpha beta []

/-- The loop-carried locals of the `negamax` move loop
(src/src/search.rs:333-335 and the mutable `alpha`/`beta`). -/
structure LoopState where
  alpha : Eval
  beta : Eval
  bestScore : Eval
  bestMove : Option Move
  hashFlag : Flag
  pv : List Move
  ctx : SearchCtx

/-- Outcome of the `negamax` move loop: an early `return` out of the whole
function, or the fallthrough with the final loop state. -/
inductive LoopOut where
  | early : NResult → LoopOut
  | done : LoopState → LoopOut

/-- The move loop of `negamax` (src/src/search.rs:337-451), with the
recursive call abstracted as `recurse`.  `d` is the node's data and `depth`
the node's (check-extended) remaining depth. -/
def negamaxLoop
    (recurse : GameTree → SearchCtx → Nat → Eval → Eval → Bool → NodeType → NResult)
    (d : NodeData) (depth : Nat) (isCheck : Bool) (futile : Bool)
    (nmpAllowed : Bool) (nt : NodeType) :
    List (MoveData × GameTree) → Nat → LoopState → LoopOut
  | [], _, ls => LoopOut.done ls
  | (md, child) :: rest, moveIdx, ls =>
    let ctx1 := make_move ls.ctx child.data
    let isQuiet := !is_capture d.board md.mv && md.mv.promotion.isNone
    -- src/src/search.rs:341: `let gives_check = refs.board.checkers().is_empty();`
    -- evaluated on the child position, hence true when the child side to move
    -- is NOT in check.
    let givesCheck := !child.data.isCheck
    if futilitySkip ls.bestMove.isSome futile isQuiet isCheck givesCheck then
      negamaxLoop recurse d depth isCheck futile nmpAllowed nt rest (moveIdx + 1)
        { ls with ctx := unmake_move ctx1 }
    else
      -- late-move reduction (src/src/search.rs:352-361); the last conjunct is
      -- `refs.board.checkers().is_empty()` on the child position.
      let reduction : Nat :=
        if 3 ≤ depth ∧ 3 ≤ moveIdx ∧ isCheck = false ∧ md.mv.promotion = none
            ∧ child.data.isCheck = false then 2
        else 0
      let step : Eval × List Move × SearchCtx :=
        if isDrawNode ctx1 child.data then ((0 : Eval), ([] : List Move), ctx1)
        else if moveIdx ≠ 0 then
          let r1 := recurse child ctx1 (depth - 1 - reduction)
            (-ls.alpha - 1) (-ls.alpha) nmpAllowed NodeType.other
          if ls.alpha < -r1.score then
            let r2 := recurse child r1.ctx (depth - 1) (-ls.beta) (-ls.alpha) nmpAllowed nt
            (-r2.score, r2.pv, r2.ctx)
          else (-r1.score, r1.pv, r1.ctx)
        else
          let r := recurse child ctx1 (depth - 1) (-ls.beta) (-ls.alpha) nmpAllowed NodeType.pv
          (-r.score, r.pv, r.ctx)
      let evalScore := step.1
      let nodePv := step.2.1
      let ctx2 := unmake_move step.2.2
      let best :=
        if ls.bestScore < evalScore then (evalScore, some md.mv)
        else (ls.bestScore, ls.bestMove)
      -- mate-distance pruning (src/src/search.rs:406-424), with the node's
      -- own ply restored by unmake_move.
      let matingValueHigh := EVAL_INFINITY - (ctx2.st.ply : Int)
      let beta1 := if matingValueHigh < ls.beta then matingValueHigh else ls.beta
      if matingValueHigh < ls.beta ∧ beta1 ≤ ls.alpha then
        LoopOut.early { score := beta1, ctx := ctx2, pv := ls.pv }
      else
        let matingValueLow := (ctx2.st.ply : Int) - EVAL_INFINITY
        let alpha1 := if ls.alpha < matingValueLow then matingValueLow else ls.alpha
        if ls.alpha < matingValueLow ∧ beta1 ≤ alpha1 then
          LoopOut.early { score := alpha1, ctx := ctx2, pv := ls.pv }
        else if beta1 ≤ evalScore then
          -- beta cutoff (src/src/search.rs:426-440): store a Beta entry and,
          -- for a non-capture, update the killers.
          let tt1 := ctx2.tt.insert (Entry.new d.hash depth Flag.beta beta1 best.2)
          let st1 := onBetaCutoffKiller d.board md.mv ctx2.st
          LoopOut.early { score := beta1, ctx := { ctx2 with tt := tt1, st := st1 }, pv := ls.pv }
        else if alpha1 < evalScore then
          negamaxLoop recurse d depth isCheck futile nmpAllowed nt rest (moveIdx + 1)
            { alpha := evalScore, beta := beta1, bestScore := best.1, bestMove := best.2,
              hashFlag := Flag.exact, pv := md.mv :: nodePv, ctx := ctx2 }
        else
          negamaxLoop recurse d depth isCheck futile nmpAllowed nt rest (moveIdx + 1)
            { alpha := alpha1, beta := beta1, bestScore := best.1, bestMove := best.2,
              hashFlag := ls.hashFlag, pv := ls.pv, ctx := ctx2 }

/-- `negamax` (src/src/search.rs:250-470).  `fuel` bounds the recursion
depth (see `quiescence`); `check_terminate` is modelled as in `quiescence`.
The body follows the source line by line: terminate test, node count, check
extension, quiescence delegation at depth 0, transposition-table probe and
ply>0 cutoff, static evaluation with the mate-marker mask, reverse futility
pruning, move generation and ordering, the futility flag, the move loop, the
terminal (no legal move) scores, and the final store. -/
def negamax : Nat → GameTree → SearchCtx → Nat → Eval → Eval → Bool → NodeType → NResult
  | 0, _, ctx, _, _, _, _, _ => { score := 0, ctx := ctx, pv := [] }
  | fuel + 1, t, ctx, depth0, alpha, beta, nmpAllowed, nt =>
    if ctx.st.terminate then { score := 0, ctx := ctx, pv := [] }
    else
      let ctx := { ctx with st := { ctx.st with nodes := ctx.st.nodes + 1 } }
      let d := t.data
      let isCheck := d.isCheck
      let depth := if isCheck then depth0 + 1 else depth0
      if depth = 0 then quiescence fuel t ctx alpha beta
      else
        let ttPair :=
          match ctx.tt.probe d.hash with
          | some e => e.get depth ctx.st.ply alpha beta
          | none => ((none : Option Eval), (none : Option Move))
        if ttPair.1.isSome && decide (0 < ctx.st.ply) then
          { score := ttPair.1.getD 0, ctx := ctx, pv := [] }
        else
          let staticEval :=
            match ttPair.1 with
            | some ev =>
              if ev < EVAL_INFINITY - 256 ∧ 256 - EVAL_INFINITY < ev then ev else d.eval
            | none => d.eval
          let rfp : Option Eval :=
            match reverseFutilityMargin nt depth with
            | some margin =>
              if beta ≤ satSub staticEval margin then some (satSub staticEval margin) else none
            | none => none
          match rfp with
          | some ev => { score := ev, ctx := ctx, pv := [] }
          | none =>
            let moves := order_moves d.board ctx.st ttPair.2 t.children
            let futile := futileFlag staticEval alpha depth
            let isGameOver := moves.isEmpty
            let init : LoopState :=
              { alpha := alpha, beta := beta, bestScore := -EVAL_INFINITY - 1,
                bestMove := none, hashFlag := Flag.alpha, pv := [], ctx := ctx }
            match negamaxLoop
                (fun t' ctx' depth' alpha' beta' nmp' nt' =>
                  negamax fuel t' ctx' depth' alpha' beta' nmp' nt')
                d depth isCheck futile nmpAllowed nt moves 0 init with
            | LoopOut.early r => r
            | LoopOut.done ls =>
              if isGameOver then
                if isCheck then
                  { score := -EVAL_INFINITY + (ls.ctx.st.ply : Int), ctx := ls.ctx, pv := ls.pv }
                else { score := 0, ctx := ls.ctx, pv := ls.pv }
              else
                { score := ls.alpha,
                  ctx := { ls.ctx with
                    tt := ls.ctx.tt.insert
                      (Entry.new d.hash depth ls.hashFlag ls.alpha ls.bestMove) },
                  pv := ls.pv }

/-! ### Spec-side formalisations used for refinement comparisons

The following definitions are written from the words of the specification
claims (not from the source); each is compared against the corresponding
source-derived definition above. -/

/-- Mate-distance decoding as the specification words it: `score - ply` above
`INFINITY - 256`, `score + ply` below `256 - INFINITY`, unchanged otherwise. -/
def mateRebias (score : Eval) (ply : Nat) : Eval :=
  if EVAL_INFINITY - 256 < score then score - (ply : Int)
  else if score < 256 - EVAL_INFINITY then score + (ply : Int)
  else score

/-- Claim C2 as stated: the stored score is re-biased by the current ply
before being used, for every bound flag; the bound tests then compare the
decoded score. -/
def Entry.getClaim (e : Entry) (depth ply : Nat) (alpha beta : Eval) :
    Option Eval × Option Move :=
  let value : Option Eval :=
    if e.depth < depth then none
    else
      let score := mateRebias e.score ply
      match e.flag with
      | Flag.exact => some score
      | Flag.alpha => if score ≤ alpha then some alpha else none
      | Flag.beta => if beta ≤ score then some beta else none
  (value, e.bestMove)

/-- Claim C2 amended to what the source does: the re-bias applies only to
`Exact` entries; `Alpha`/`Beta` entries compare the raw stored score against
`alpha`/`beta` and return that bound unchanged; the stored best move is
returned in all cases, and no score is usable when the stored depth is below
the requested depth. -/
def Entry.getAmended (e : Entry) (depth ply : Nat) (alpha beta : Eval) :
    Option Eval × Option Move :=
  let value : Option Eval :=
    if e.depth < depth then none
    else
      match e.flag with
      | Flag.exact => some (mateRebias e.score ply)
      | Flag.alpha => if e.score ≤ alpha then some alpha else none
      | Flag.beta => if beta ≤ e.score then some beta else none
  (value, e.bestMove)

/-- Claim C6 as stated: the futility flag is `static_eval + margin <= alpha`
with margin 293 at remaining depth 1 and margin 620 at remaining depth 2,
and never set at any other depth. -/
def claimFutileFlag (staticEval alpha : Eval) (depth : Nat) : Bool :=
  if depth = 1 then decide (satAdd staticEval 293 ≤ alpha)
  else if depth = 2 then decide (satAdd staticEval 620 ≤ alpha)
  else false

/-- Claim C4 as stated: among the backward scan (at most `halfmove_clock + 1`
entries, stepping by 2), at least two entries PRIOR to the current position
share the current hash.  The top of the scanned stack is the current
position's own entry, so the prior scanned entries are `drop 1` of the
stepped scan. -/
def claimThreefold (history : List Nat) (halfmoveClock : Nat) (hash : Nat) : Bool :=
  decide (2 ≤ (((stepBy2 (history.reverse.take (halfmoveClock + 1))).drop 1).filter
    (fun h => h == hash)).length)

/-- Number of pieces of a given colour and kind on the board. -/
def colorPieceCount (b : Board) (c : Color) (p : Piece) : Nat :=
  (Finset.univ.filter (fun s => b s = some (c, p))).card

/-- Claim C8 as stated: the oracle returns true exactly for the listed
material configurations (each configuration read per side, e.g. "K+N vs
K+N" means one knight on each side). -/
def claimOracleDraw (b : Board) : Bool :=
  let wK := colorPieceCount b Color.white Piece.king
  let bK := colorPieceCount b Color.black Piece.king
  let wN := colorPieceCount b Color.white Piece.knight
  let bN := colorPieceCount b Color.black Piece.knight
  let wB := colorPieceCount b Color.white Piece.bishop
  let bB := colorPieceCount b Color.black Piece.bishop
  decide (
    -- K vs K
    (wK = 1 ∧ bK = 1 ∧ (occupied b).card = 2)
    -- K vs K+N or K vs K+B
    ∨ (wK = 1 ∧ bK = 1 ∧ (occupied b).card = 3
        ∧ ((pieces b Piece.knight).card = 1 ∨ (pieces b Piece.bishop).card = 1))
    -- K+N vs K+N, neither king on an edge square
    ∨ (wK = 1 ∧ bK = 1 ∧ wN = 1 ∧ bN = 1 ∧ (occupied b).card = 4
        ∧ pieces b Piece.king ∩ EDGES = ∅)
    -- K+B vs K+B, bishops on same-coloured squares
    ∨ (wK = 1 ∧ bK = 1 ∧ wB = 1 ∧ bB = 1 ∧ (occupied b).card = 4
        ∧ ¬((pieces b Piece.bishop ∩ DARK_SQUARES).card = 1))
    -- K+B vs K+B, opposite colours, each side exactly K+B, no king in a corner
    ∨ (wK = 1 ∧ bK = 1 ∧ wB = 1 ∧ bB = 1 ∧ (occupied b).card = 4
        ∧ (pieces b Piece.bishop ∩ DARK_SQUARES).card = 1
        ∧ pieces b Piece.king ∩ CORNERS = ∅)
    -- K+B vs K+N, each side exactly king + one minor, no king in a corner
    ∨ (wK = 1 ∧ bK = 1 ∧ ((wB = 1 ∧ bN = 1) ∨ (wN = 1 ∧ bB = 1))
        ∧ (occupied b).card = 4 ∧ pieces b Piece.king ∩ CORNERS = ∅))

/-! ### Concrete inputs used by counterexamples and witnesses -/

/-- The default per-search state (`SearchState::default()`,
src/src/search.rs:724-737): zero counters, no terminate cause, empty killer
table. -/
def initSearchState : SearchState :=
  { nodes := 0, ply := 0, seldepth := 0, terminate := false
    killerMoves := fun _ => (none, none) }

/-- A stored `Alpha` entry whose score encodes a mate (score below
`256 - INFINITY`). -/
def eMate : Entry := ⟨0, 1, Flag.alpha, -29900, none⟩

/-- Slot 0 of the sample bucket: depth 5. -/
def eA : Entry := ⟨11, 5, Flag.exact, 10, none⟩

/-- Slot 1 of the sample bucket: depth 3 (lowest, earliest of the tie). -/
def eB : Entry := ⟨22, 3, Flag.alpha, -5, none⟩

/-- Slot 2 of the sample bucket: depth 7. -/
def eC : Entry := ⟨33, 7, Flag.beta, 40, none⟩

/-- Slot 3 of the sample bucket: depth 3 (ties slot 1, but later). -/
def eD : Entry := ⟨44, 3, Flag.exact, 0, none⟩

/-- A one-bucket transposition table with two used entries. -/
def tt0 : TranspositionTable := ⟨[⟨[eA, eB, eC, eD]⟩], 4, 2⟩

/-- An entry inserted into `tt0` (its key addresses bucket 0). -/
def eNew : Entry := ⟨77, 9, Flag.exact, 100, none⟩

/-- A node with no legal moves, side to move NOT in check (a stalemate
node), with a large static evaluation. -/
def stalemateData : NodeData :=
  { board := fun _ => none, isCheck := false, hash := 0, halfmoveClock := 0, eval := 500 }

/-- Search context for the stalemate counterexample: ply 5, empty
transposition table, no terminate cause. -/
def stalemateCtx : SearchCtx :=
  { st := { initSearchState with ply := 5, seldepth := 5 }
    history := [], tt := TranspositionTable.new 0 }

/-- A node with no legal moves, side to move in check (a checkmate node). -/
def mateData : NodeData :=
  { board := fun _ => none, isCheck := true, hash := 0, halfmoveClock := 0, eval := 0 }

/-- Search context for the checkmate witness: ply 3. -/
def mateCtx : SearchCtx :=
  { st := { initSearchState with ply := 3, seldepth := 3 }
    history := [], tt := TranspositionTable.new 0 }

/-- Board of the promotion counterexample: white pawn e7 (52), white king g1
(6), black king b4 (25); e8 (60) is empty, so the queen promotion e7e8q is
not a capture. -/
def promRootBoard : Board := fun s =>
  if s.val = 52 then some (Color.white, Piece.pawn)
  else if s.val = 6 then some (Color.white, Piece.king)
  else if s.val = 25 then some (Color.black, Piece.king)
  else none

/-- The quiet queen promotion e7e8q. -/
def mvProm : Move := ⟨(52 : Fin 64), (60 : Fin 64), some Piece.queen⟩

/-- Board after e7e8q: white queen e8, white king g1, black king b4. -/
def promChildBoard : Board := fun s =>
  if s.val = 60 then some (Color.white, Piece.queen)
  else if s.val = 6 then some (Color.white, Piece.king)
  else if s.val = 25 then some (Color.black, Piece.king)
  else none

/-- The child position reached by e7e8q: not in check, bad for the side to
move there (score -60 from its perspective). -/
def promChildData : NodeData :=
  { board := promChildBoard, isCheck := false, hash := 999, halfmoveClock := 0, eval := -60 }

/-- Root position of the promotion counterexample: not in check, one legal
move (the quiet promotion e7e8q). -/
def promRootData : NodeData :=
  { board := promRootBoard, isCheck := false, hash := 111, halfmoveClock := 3, eval := 0 }

/-- Game tree in which the only root move is the quiet promotion and it
produces a beta cutoff. -/
def promTree : GameTree :=
  GameTree.node promRootData [(⟨mvProm, 0⟩, GameTree.node promChildData [])]

/-- Search context for the promotion counterexample. -/
def promCtx : SearchCtx :=
  { st := initSearchState, history := [], tt := TranspositionTable.new 0 }

/-- A capturing move on `promRootBoard` (its target square e7 is occupied). -/
def mvCap : Move := ⟨(6 : Fin 64), (52 : Fin 64), none⟩

/-- Board of the C8 counterexample: white king d4 (27), black king d6 (43),
white knights f3 (21) and g5 (38) — K+N+N vs K, both kings off the edges. -/
def boardKNNvK : Board := fun s =>
  if s.val = 27 then some (Color.white, Piece.king)
  else if s.val = 43 then some (Color.black, Piece.king)
  else if s.val = 21 then some (Color.white, Piece.knight)
  else if s.val = 38 then some (Color.white, Piece.knight)
  else none

/-! ### Helper lemmas -/

/-- The bucket index computed by `hash_idx` is always within the table. -/
theorem hashIdx_lt (tt : TranspositionTable) (key : Nat) (h : tt.table ≠ []) :
    tt.hashIdx key < tt.table.length := by
  unfold TranspositionTable.hashIdx
  have hlen : 0 < tt.table.length := List.length_pos.2 h
  have hmask : key &&& 0xffffffff < 2 ^ 32 := by
    have h2 := Nat.and_le_right (n := key) (m := 0xffffffff)
    omega
  rw [Nat.shiftRight_eq_div_pow]
  have hlt : (key &&& 0xffffffff) * tt.table.length < tt.table.length * 2 ^ 32 := by
    calc (key &&& 0xffffffff) * tt.table.length
        < 2 ^ 32 * tt.table.length := mul_lt_mul_of_pos_right hmask hlen
      _ = tt.table.length * 2 ^ 32 := Nat.mul_comm _ _
  exact (Nat.div_lt_iff_lt_mul (by norm_num)).2 hlt

/-- A list of length 4 is literally a four-element list. -/
theorem list_length_four (l : List Entry) (h : l.length = 4) :
    ∃ a b c d, l = [a, b, c, d] := by
  match l with
  | [a, b, c, d] => exact ⟨a, b, c, d, rfl⟩
  | [] => simp at h
  | [_] => simp at h
  | [_, _] => simp at h
  | [_, _, _] => simp at h
  | _ :: _ :: _ :: _ :: _ :: _ => simp [List.length] at h

/-- For a four-entry bucket, `lowestDepthIndex` picks an in-bounds slot of
minimal recorded depth, and the earliest such slot on ties. -/
theorem lowestDepthIndex_spec4 (e0 e1 e2 e3 : Entry) :
    (Bucket.mk [e0, e1, e2, e3]).lowestDepthIndex < 4
    ∧ (∀ j, j < 4 →
        (Bucket.mk [e0, e1, e2, e3]).slotDepth ((Bucket.mk [e0, e1, e2, e3]).lowestDepthIndex)
          ≤ (Bucket.mk [e0, e1, e2, e3]).slotDepth j)
    ∧ (∀ j, j < (Bucket.mk [e0, e1, e2, e3]).lowestDepthIndex →
        (Bucket.mk [e0, e1, e2, e3]).slotDepth ((Bucket.mk [e0, e1, e2, e3]).lowestDepthIndex)
          < (Bucket.mk [e0, e1, e2, e3]).slotDepth j) := by
  simp only [Bucket.lowestDepthIndex, lowestDepthIdxAux, Bucket.slotDepth]
  split_ifs <;>
    refine ⟨by omega, fun j hj => ?_, fun j hj => ?_⟩ <;>
    interval_cases j <;>
    simp_all [List.getD] <;> omega

/-- Unfolding equation for `stepBy2` on a cons cell. -/
theorem stepBy2_cons (x : Nat) (rest : List Nat) :
    stepBy2 (x :: rest) = x :: stepBy2 (rest.drop 1) := by
  match rest with
  | [] => rfl
  | y :: rest => rfl

/-- Claim C2, amended: `Entry::get` yields a usable score only when the
stored depth is at least the requested depth; the mate re-bias by the
current ply applies only to `Exact` entries, while `Alpha`/`Beta` entries
compare the raw stored score against `alpha`/`beta` and return that bound
unchanged; the stored best move is returned in all cases.
`Entry.getAmended` states exactly that reading. -/
theorem entry_get_amended_eq (e : Entry) (depth ply : Nat) (alpha beta : Eval) :
    Entry.get e depth ply alpha beta = Entry.getAmended e depth ply alpha beta := by
  unfold Entry.get Entry.getAmended mateRebias
  by_cases h : depth ≤ e.depth
  · simp only [if_pos h, if_neg (by omega : ¬ e.depth < depth)]
  · have h2 : e.depth < depth := by omega
    rw [if_neg h, if_pos h2]

/-- Claim C2 counterexample: for a stored `Alpha` entry whose score encodes
a mate (score -29900 < 256 - INFINITY) at ply 10 with alpha = -29895, the
source compares the raw score (usable, returns alpha) whereas the claim's
re-bias-before-use-for-every-flag reading (`Entry.getClaim`) decodes the
score to -29890 first and finds it unusable; the two disagree. -/
theorem entry_get_rebias_counterexample :
    Entry.get eMate 1 10 (-29895) 0 = (some (-29895), none)
    ∧ Entry.getClaim eMate 1 10 (-29895) 0 = (none, none)
    ∧ Entry.get eMate 1 10 (-29895) 0 ≠ Entry.getClaim eMate 1 10 (-29895) 0 := by decide

/-- Claim C4, amended: when the history stack ends with the current
position's hash (as `make_move` guarantees), the detector flags a repetition
exactly when at least ONE strictly prior entry, at the stepped-by-2 offsets
inside the `halfmove_clock + 1` window, shares the current hash — the count
of 2 in the source includes the current position's own entry at the top of
the scanned stack. -/
theorem is_threefold_repetition_amended (l : List Nat) (clock hash : Nat) :
    is_threefold_repetition (l ++ [hash]) clock hash = true ↔
      1 ≤ ((stepBy2 ((l.reverse.take clock).drop 1)).filter (fun h => h == hash)).length := by
  unfold is_threefold_repetition
  rw [List.reverse_append]
  simp only [List.reverse_cons, List.reverse_nil, List.nil_append, List.cons_append,
    List.take_succ_cons, decide_eq_true_eq]
  rw [stepBy2_cons]
  simp only [List.filter_cons, beq_self_eq_true, if_pos, List.length_cons]
  omega

/-- Claim C4 counterexample: with history `[5, 7, 5]` (current hash 5 on
top, one prior occurrence) and halfmove clock 2, the source flags a
repetition although only one entry prior to the current position shares the
hash, so the claim's "at least two entries prior to the current position"
reading is false on the code. -/
theorem threefold_counterexample :
    is_threefold_repetition [5, 7, 5] 2 5 = true
    ∧ claimThreefold [5, 7, 5] 2 5 = false := by decide

/-- Claim C5: the futility filter of negamax evaluated at the failing
input.  With a move already tried, the futility flag set, a quiet move and
the parent not in check, the source skips the move exactly when the source
variable `gives_check = refs.board.checkers().is_empty()` is FALSE, i.e.
when the child position IS in check — the move GIVES check.  A quiet
non-checking move (`gives_check = true`) is never skipped.  This is the
opposite polarity of the claim (skip only when the move does not give
check). -/
theorem futilitySkip_gives_check_polarity :
    futilitySkip true true true false false = true
    ∧ futilitySkip true true true false true = false := by decide

/-- Claim C6 counterexample: at remaining depth 1 with static evaluation 0
and alpha = 400 the source computes margin 620 (index 1 of `[293, 620]`)
and the flag is false, while the claim's margins (293 at depth 1) make it
true. -/
theorem futileFlag_margin_counterexample :
    futileFlag 0 400 1 = false ∧ claimFutileFlag 0 400 1 = true := by decide

/-- Claim C6, amended: the futility flag is `static_eval + margin <= alpha`
(saturating add) with margin 293 at remaining depth 0 and margin 620 at
remaining depth 1 — the source indexes `[293, 620]` directly with the depth
— and the flag is never set at any remaining depth >= 2.  (Depth 0 cannot
reach this computation, since depth 0 is delegated to quiescence.) -/
theorem futileFlag_amended (s a : Eval) (d : Nat) :
    futileFlag s a 0 = decide (satAdd s 293 ≤ a)
    ∧ futileFlag s a 1 = decide (satAdd s 620 ≤ a)
    ∧ (2 ≤ d → futileFlag s a d = false) := by
  refine ⟨rfl, rfl, fun hd => ?_⟩
  unfold futileFlag FUTILITY_MARGINS
  rw [List.get?_eq_none.2 (by simpa using hd)]

/-- Claim C6 witness: the amended theorem applied at depth 5. -/
theorem futileFlag_amended_witness : futileFlag 0 0 5 = false :=
  (futileFlag_amended 0 0 5).2.2 (by decide)

/-- Claim C7 counterexample: a full negamax run on a one-move game tree in
which the quiet (non-capturing) queen promotion e7e8q produces a beta
cutoff; the cutoff's killer update stores the promotion move in the first
killer slot, so the killer table does hold a promotion move — the source
guard checks only `!is_capture`, not the promotion. -/
theorem killer_stores_promotion_counterexample :
    mvProm.promotion = some Piece.queen
    ∧ is_capture promRootBoard mvProm = false
    ∧ ((negamax 3 promTree promCtx 1 (-100) 50 true NodeType.root).ctx.st.killerMoves 0).1
        = some mvProm :=
  ⟨rfl, rfl, by rfl⟩

/-- Claim C7, amended: the beta-cutoff killer update never stores a capture
(when `is_capture` holds the state is unchanged); any non-capture — quiet
promotions included — is stored; when the new killer differs from the first
slot at the current ply, the first slot is demoted to the second and the
first slot becomes the new move, all other plies unchanged; when it equals
the first slot the table is unchanged. -/
theorem killer_update_amended (b : Board) (st : SearchState) (mv : Move) :
    (is_capture b mv = true → onBetaCutoffKiller b mv st = st)
    ∧ (is_capture b mv = false → onBetaCutoffKiller b mv st = store_killer_move st mv)
    ∧ ((st.killerMoves st.ply).1 = some mv → store_killer_move st mv = st)
    ∧ ((st.killerMoves st.ply).1 ≠ some mv →
        (store_killer_move st mv).killerMoves st.ply = (some mv, (st.killerMoves st.ply).1)
        ∧ ∀ q, q ≠ st.ply → (store_killer_move st mv).killerMoves q = st.killerMoves q) := by
  refine ⟨fun h => ?_, fun h => ?_, fun h => ?_, fun h => ?_⟩
  · unfold onBetaCutoffKiller
    simp [h]
  · unfold onBetaCutoffKiller
    simp [h]
  · unfold store_killer_move
    simp [h]
  · unfold store_killer_move
    rw [if_pos h]
    refine ⟨by simp, fun q hq => by simp [hq]⟩

/-- Claim C7 witness: the amended theorem applied to a capturing move (the
target square e7 is occupied), leaving the state unchanged. -/
theorem killer_update_amended_witness :
    onBetaCutoffKiller promRootBoard mvCap initSearchState = initSearchState :=
  (killer_update_amended promRootBoard initSearchState mvCap).1 (by decide)

/-- Claim C10: a transposition table constructed with size 0 MiB has zero
buckets, and every operation is total and harmless: probe returns absent
for every key, insert leaves the table unchanged, hashfull returns 0 (the
dividing branch is guarded by the emptiness test), and clear leaves
`used_entries` at 0. -/
theorem tt_zero_size_total (key : Nat) (e : Entry) :
    (TranspositionTable.new 0).table = []
    ∧ (TranspositionTable.new 0).probe key = none
    ∧ (TranspositionTable.new 0).insert e = TranspositionTable.new 0
    ∧ (TranspositionTable.new 0).hashfull = 0
    ∧ ((TranspositionTable.new 0).clear).usedEntries = 0 :=
  ⟨rfl, rfl, rfl, rfl, rfl⟩

/-- Claim C1 counterexample: a position with no legal moves and the side to
move not in check (a stalemate node) reached at a non-PV node with remaining
depth 1, a large static evaluation (500) and window (-200, -100): reverse
futility pruning returns 470 before the move loop, so negamax does not
return the claimed stalemate score 0. -/
theorem negamax_terminal_counterexample :
    (GameTree.node stalemateData []).children = []
    ∧ stalemateData.isCheck = false
    ∧ (negamax 1 (GameTree.node stalemateData []) stalemateCtx 1 (-200) (-100) true
        NodeType.other).score ≠ 0 :=
  ⟨rfl, rfl, by decide⟩

/-- Claim C3: inserting into a non-empty transposition table (whose buckets
all hold 4 slots) replaces, within the bucket addressed by the key, exactly
the slot of lowest recorded depth (ties broken by the earliest slot
position), increments `used_entries` exactly when the replaced slot's depth
was zero, preserves `total_entries`, and leaves every other slot of that
bucket and every other bucket unchanged. -/
theorem tt_insert_replaces_lowest_depth (tt : TranspositionTable) (e : Entry)
    (hne : tt.table ≠ [])
    (hwf : ∀ bu ∈ tt.table, bu.entries.length = 4) :
    tt.hashIdx e.key < tt.table.length
    ∧ (tt.insert e).table = tt.table.set (tt.hashIdx e.key)
        (Bucket.mk ((tt.bucketAt e.key).entries.set ((tt.bucketAt e.key).lowestDepthIndex) e))
    ∧ (tt.insert e).usedEntries =
        (if (tt.bucketAt e.key).slotDepth ((tt.bucketAt e.key).lowestDepthIndex) = 0
         then tt.usedEntries + 1 else tt.usedEntries)
    ∧ (tt.insert e).totalEntries = tt.totalEntries
    ∧ (tt.bucketAt e.key).lowestDepthIndex < 4
    ∧ (∀ j, j < 4 →
        (tt.bucketAt e.key).slotDepth ((tt.bucketAt e.key).lowestDepthIndex)
          ≤ (tt.bucketAt e.key).slotDepth j)
    ∧ (∀ j, j < (tt.bucketAt e.key).lowestDepthIndex →
        (tt.bucketAt e.key).slotDepth ((tt.bucketAt e.key).lowestDepthIndex)
          < (tt.bucketAt e.key).slotDepth j)
    ∧ (∀ k, k ≠ tt.hashIdx e.key →
        (tt.insert e).table.getD k Bucket.default = tt.table.getD k Bucket.default)
    ∧ (∀ j, j ≠ (tt.bucketAt e.key).lowestDepthIndex →
        ((tt.insert e).table.getD (tt.hashIdx e.key) Bucket.default).entries.getD j Entry.default
          = (tt.bucketAt e.key).entries.getD j Entry.default) := by
  have hidx := hashIdx_lt tt e.key hne
  have hempty : tt.table.isEmpty = false := by
    cases htab : tt.table with
    | nil => exact absurd htab hne
    | cons x xs => rfl
  have hmem : tt.bucketAt e.key ∈ tt.table := by
    unfold TranspositionTable.bucketAt
    rw [List.getD_eq_getElem _ _ hidx]
    exact List.getElem_mem _
  have hlen4 : (tt.bucketAt e.key).entries.length = 4 := hwf _ hmem
  obtain ⟨a, b, c, d, habcd⟩ := list_length_four _ hlen4
  have hbu : tt.bucketAt e.key = Bucket.mk [a, b, c, d] := by rw [← habcd]
  have hins : tt.insert e =
      { tt with
        table := tt.table.set (tt.hashIdx e.key)
          (Bucket.mk ((tt.bucketAt e.key).entries.set ((tt.bucketAt e.key).lowestDepthIndex) e))
        usedEntries :=
          if (tt.bucketAt e.key).slotDepth ((tt.bucketAt e.key).lowestDepthIndex) = 0
          then tt.usedEntries + 1 else tt.usedEntries } := by
    unfold TranspositionTable.insert Bucket.store
    rw [hempty]
    rfl
  have hspec := lowestDepthIndex_spec4 a b c d
  have hlow4 : (tt.bucketAt e.key).lowestDepthIndex < 4 := by rw [hbu]; exact hspec.1
  refine ⟨hidx, by rw [hins], by rw [hins], by rw [hins], hlow4, ?_, ?_, ?_, ?_⟩
  · rw [hbu]; exact hspec.2.1
  · rw [hbu]; exact hspec.2.2
  · intro k hk
    rw [hins]
    simp only [List.getD_eq_getElem?_getD]
    rw [List.getElem?_set_ne (fun hx => hk hx.symm)]
  · intro j hj
    have htab : (tt.insert e).table = tt.table.set (tt.hashIdx e.key)
        (Bucket.mk ((tt.bucketAt e.key).entries.set ((tt.bucketAt e.key).lowestDepthIndex) e)) := by
      rw [hins]
    have hget : (tt.table.set (tt.hashIdx e.key)
          (Bucket.mk ((tt.bucketAt e.key).entries.set
            ((tt.bucketAt e.key).lowestDepthIndex) e))).getD
          (tt.hashIdx e.key) Bucket.default
        = Bucket.mk ((tt.bucketAt e.key).entries.set
            ((tt.bucketAt e.key).lowestDepthIndex) e) := by
      rw [List.getD_eq_getElem _ _ (by rw [List.length_set]; exact hidx)]
      rw [List.getElem_set_self]
    rw [htab, hget]
    simp only [List.getD_eq_getElem?_getD]
    rw [List.getElem?_set_ne (fun hx => hj hx.symm)]

/-- Claim C3 witness: inserting into a one-bucket table with slot depths
[5, 3, 7, 3] replaces slot 1 (the earliest depth-3 slot) and, because the
replaced depth is non-zero, leaves `used_entries` unchanged. -/
theorem tt_insert_replaces_lowest_depth_witness :
    (tt0.insert eNew).usedEntries = 2
    ∧ (tt0.insert eNew).table = [Bucket.mk [eA, eNew, eC, eD]] := by
  have h := tt_insert_replaces_lowest_depth tt0 eNew (by decide) (by decide)
  refine ⟨?_, ?_⟩
  · rw [h.2.2.1]; decide
  · rw [h.2.1]; decide

/-- Claim C8 counterexample: a 4-piece position with BOTH knights belonging
to white (K+N+N vs K, both kings off the edges) is declared drawn by the
oracle — the source only counts knights on the board — but it is not among
the claim's configurations (K+N vs K+N means one knight per side), where it
should be false. -/
theorem oracle_knights_counterexample :
    Oracle.is_draw boardKNNvK = true
    ∧ claimOracleDraw boardKNNvK = false
    ∧ colorPieceCount boardKNNvK Color.white Piece.knight = 2
    ∧ colorPieceCount boardKNNvK Color.black Piece.knight = 0 := by decide

/-- Claim C8, amended: `Oracle::is_draw` returns true exactly when: 2
pieces are on the board; or 3 pieces with at least one knight or bishop
among them; or 4 pieces with (two knights on the board — either
distribution — and neither king on an edge) or (two bishops on
same-coloured squares — either distribution) or (two bishops, one piece per
side besides the kings, and neither king in a corner) or (one bishop and
one knight, one piece per side besides the kings, and neither king in a
corner). -/
theorem oracle_is_draw_characterization (b : Board) :
    Oracle.is_draw b = true ↔
      (occupied b).card = 2
      ∨ ((occupied b).card = 3 ∧ (pieces b Piece.knight ∪ pieces b Piece.bishop) ≠ ∅)
      ∨ ((occupied b).card = 4 ∧
          (((pieces b Piece.knight).card = 2 ∧ pieces b Piece.king ∩ EDGES = ∅)
          ∨ ((pieces b Piece.bishop).card = 2
              ∧ ¬((pieces b Piece.bishop ∩ DARK_SQUARES).card = 1))
          ∨ ((pieces b Piece.bishop).card = 2 ∧ (colors b Color.white).card = 2
              ∧ pieces b Piece.king ∩ CORNERS = ∅)
          ∨ ((pieces b Piece.bishop).card = 1 ∧ (pieces b Piece.knight).card = 1
              ∧ (colors b Color.white).card = 2 ∧ pieces b Piece.king ∩ CORNERS = ∅))) := by
  unfold Oracle.is_draw
  split_ifs with h2 h3 h4 hk hb1 hb2 hbn <;> simp_all

/-- Claim C1, amended: for every position reached during negamax that has
no legal moves, when the terminal check is actually reached — the terminate
flag is unset, the (check-extended) depth is nonzero, no transposition-table
entry is present for the position's hash, and reverse futility pruning does
not fire — negamax returns `-INFINITY + ply` when the side to move is in
check (checkmate) and 0 otherwise (stalemate), with INFINITY = 30000. -/
theorem negamax_terminal_amended (fuel : Nat) (d : NodeData) (ctx : SearchCtx)
    (depth : Nat) (alpha beta : Eval) (nmpAllowed : Bool) (nt : NodeType)
    (hterm : ctx.st.terminate = false)
    (hdepth : d.isCheck = false → 1 ≤ depth)
    (hprobe : ctx.tt.probe d.hash = none)
    (hrfp : ∀ m, reverseFutilityMargin nt (if d.isCheck then depth + 1 else depth) = some m →
      satSub d.eval m < beta) :
    (negamax (fuel + 1) (GameTree.node d []) ctx depth alpha beta nmpAllowed nt).score =
      if d.isCheck then -EVAL_INFINITY + (ctx.st.ply : Int) else 0 := by
  cases hc : d.isCheck with
  | true =>
    simp only [hc, if_true] at hrfp
    rcases hm : reverseFutilityMargin nt (depth + 1) with _ | m
    · simp [negamax, hterm, GameTree.data, GameTree.children, hc, hprobe, hm,
        order_moves, List.insertionSort, negamaxLoop]
    · have hlt := hrfp m hm
      simp [negamax, hterm, GameTree.data, GameTree.children, hc, hprobe, hm,
        order_moves, List.insertionSort, negamaxLoop, not_le.2 hlt]
  | false =>
    have h1 : depth ≠ 0 := by have := hdepth hc; omega
    simp only [hc, if_false, Bool.false_eq_true] at hrfp
    rcases hm : reverseFutilityMargin nt depth with _ | m
    · simp [negamax, hterm, GameTree.data, GameTree.children, hc, hprobe, hm, h1,
        order_moves, List.insertionSort, negamaxLoop]
    · have hlt := hrfp m hm
      simp [negamax, hterm, GameTree.data, GameTree.children, hc, hprobe, hm, h1,
        order_moves, List.insertionSort, negamaxLoop, not_le.2 hlt]

/-- Claim C1 witness: a checkmated node (in check, no legal moves) at ply 3
yields -30000 + 3 = -29997. -/
theorem negamax_terminal_amended_witness :
    (negamax 5 (GameTree.node mateData []) mateCtx 0 (-30000) 30000 true NodeType.other).score
      = -29997 := by
  have h := negamax_terminal_amended 4 mateData mateCtx 0 (-30000) 30000 true NodeType.other
    rfl (by decide) rfl (by
      intro m hm
      simp [reverseFutilityMargin, mateData] at hm
      subst hm
      decide)
  rw [h]
  decide

end Eccat
